import Mathlib

/- Shallow embedding of the multi-source event synchronization engine of the
   opencode-vibe repository: the session-status cooldown state machine
   (packages/react/src/hooks/use-session-status.ts), the subagent sync
   reconciliation queue (packages/react/src/hooks/use-subagent-sync.ts), the
   status derivation utility (packages/react/src/store/status-utils.ts), and
   spec-modelled components whose implementation is absent from the source
   snapshot (the merged world stream and server discovery). -/

namespace OpencodeVibe

/-- Association-list lookup keyed by strings; models reading a JavaScript
`Map` entry or a `Record` field, where a missing key yields `undefined`. -/
def alookup {α : Type} (k : String) : List (String × α) → Option α
  | [] => none
  | (k2, v) :: rest => if k2 = k then some v else alookup k rest

/-- Association-list update; models `Map.set` (replace in place, or append a
new entry at the end). -/
def aset {α : Type} (k : String) (v : α) : List (String × α) → List (String × α)
  | [] => [(k, v)]
  | (k2, v2) :: rest => if k2 = k then (k, v) :: rest else (k2, v2) :: aset k v rest

/-- Association-list removal; models `Map.delete`. -/
def aerase {α : Type} (k : String) : List (String × α) → List (String × α)
  | [] => []
  | (k2, v2) :: rest => if k2 = k then aerase k rest else (k2, v2) :: aerase k rest

/- ----------------------------------------------------------------------
   use-session-status.ts: the cooldown hysteresis state machine
   ---------------------------------------------------------------------- -/

/-- Visible-status state of one `useSessionStatus` hook instance: the
`running` flag held in React state and the at-most-one pending cooldown
timer (`cooldownTimerRef`), recorded as the absolute time at which the
pending `setTimeout` callback fires. -/
structure CooldownState where
  running : Bool
  timer : Option Nat
  deriving DecidableEq, Repr

/-- Busy branch of `handleEvent` (use-session-status.ts lines 124-130):
clear any pending cooldown timer and set `running` immediately. -/
def applyBusy (_st : CooldownState) : CooldownState :=
  { running := true, timer := none }

/-- Idle branch of `handleEvent` at time `t` (lines 131-141): clear any
existing timer and schedule a fresh cooldown expiring at `t + cd`; the
`running` flag is not touched. -/
def applyIdle (cd t : Nat) (st : CooldownState) : CooldownState :=
  { st with timer := some (t + cd) }

/-- Fire the pending cooldown callback when its deadline has been reached at
time `now` (the `setTimeout` body, lines 137-140): `running` becomes false
and the timer slot clears. -/
def fireIfDue (now : Nat) (st : CooldownState) : CooldownState :=
  match st.timer with
  | some d => if d ≤ now then { running := false, timer := none } else st
  | none => st

/-- Status signals carried by a `session.status` event for the tracked
session. -/
inductive Signal where
  | busy
  | idle
  deriving DecidableEq, Repr

/-- Process one timestamped signal: a pending timer callback due by the
signal time runs first (the event loop delivers timers before later
events), then the matching branch of `handleEvent` runs. -/
def stepSignal (cd : Nat) (st : CooldownState) (ev : Nat × Signal) : CooldownState :=
  match ev.2 with
  | .busy => applyBusy (fireIfDue ev.1 st)
  | .idle => applyIdle cd ev.1 (fireIfDue ev.1 st)

/-- Run a timestamped signal trace in order. -/
def runSignals (cd : Nat) (st : CooldownState) (evs : List (Nat × Signal)) : CooldownState :=
  evs.foldl (stepSignal cd) st

/-- The externally visible `running` flag when queried at time `t`: any due
timer fires before the read. -/
def statusAt (cd : Nat) (st : CooldownState) (evs : List (Nat × Signal)) (t : Nat) : Bool :=
  (fireIfDue t (runSignals cd st evs)).running

/-- `IDLE_COOLDOWN_MS` (use-session-status.ts line 30). -/
def IDLE_COOLDOWN_MS : Nat := 60000

/-- `options.cooldownMs ?? IDLE_COOLDOWN_MS` (line 67). -/
def resolveCooldownMs (cooldownMs : Option Nat) : Nat :=
  match cooldownMs with
  | some c => c
  | none => IDLE_COOLDOWN_MS

/-- Value of the `status` property of a `session.status` event. -/
structure StatusVal where
  type : String
  deriving DecidableEq, Repr

/-- Loosely shaped `payload.properties` of a global event as the
session-status hook reads it: either expected field may be absent in the
dynamic property bag. -/
structure StatusProps where
  sessionID : Option String
  status : Option StatusVal
  deriving DecidableEq, Repr

/-- Event envelope delivered to the hook by `useMultiServerSSE`. -/
structure StatusEvent where
  directory : String
  payloadType : String
  properties : StatusProps
  deriving DecidableEq, Repr

/-- `handleEvent` of use-session-status.ts (lines 108-144), processed at
time `t` with resolved cooldown `cd`, with the JavaScript semantics made
explicit: an event whose `payload.type` is not `session.status` returns
with the state untouched; a missing or mismatched `properties.sessionID`
fails the strict equality test against `options.sessionId` and returns
untouched; otherwise the code reads `props.status.type`, which throws a
TypeError when `properties.status` is absent, modelled as `Except.error`;
a present status runs the busy or idle branch. -/
def handleEvent (sessionId : String) (cd t : Nat) (st : CooldownState) (e : StatusEvent) :
    Except String CooldownState :=
  if e.payloadType ≠ "session.status" then .ok st
  else if e.properties.sessionID ≠ some sessionId then .ok st
  else
    match e.properties.status with
    | none => .error "TypeError: cannot read type of undefined"
    | some sv => if sv.type = "busy" then .ok (applyBusy st) else .ok (applyIdle cd t st)

/- ----------------------------------------------------------------------
   store/status-utils.ts: deriveSessionStatus
   ---------------------------------------------------------------------- -/

/-- Message `time` record as stored; `completed` is optional. -/
structure MsgTime where
  created : Nat
  completed : Option Nat
  deriving DecidableEq, Repr

/-- Store message shape read by `deriveSessionStatus` (status-utils.ts
lines 20-27): `role` and `time` may be absent. -/
structure StoreMessage where
  id : String
  role : Option String
  time : Option MsgTime
  deriving DecidableEq, Repr

/-- Tool-part sub-state. -/
structure PartRunState where
  status : String
  deriving DecidableEq, Repr

/-- Store part shape (lines 28-37): `tool` and `state` may be absent. -/
structure StorePart where
  type : String
  tool : Option String
  state : Option PartRunState
  deriving DecidableEq, Repr

/-- Per-directory slice of the store (lines 15-40): each collection may be
absent. -/
structure DirectoryState where
  sessionStatus : Option (List (String × String))
  messages : Option (List (String × List StoreMessage))
  parts : Option (List (String × List StorePart))
  deriving DecidableEq, Repr

/-- The store state slice passed to `deriveSessionStatus`. -/
structure OpencodeState where
  directories : List (String × DirectoryState)
  deriving DecidableEq, Repr

/-- `DeriveSessionStatusOptions` (lines 45-57) with its defaults resolved. -/
structure DeriveSessionStatusOptions where
  includeSubAgents : Bool
  includeLastMessage : Bool
  deriving DecidableEq, Repr

/-- Destructuring defaults of line 87: `includeSubAgents` defaults to true
and `includeLastMessage` to false when the caller omits them. -/
def resolveDeriveOptions (includeSubAgents includeLastMessage : Option Bool) :
    DeriveSessionStatusOptions :=
  ⟨includeSubAgents.getD true, includeLastMessage.getD false⟩

/-- JavaScript truthiness of `lastMessage.time?.completed`: an absent
`time`, an absent `completed` and the number 0 are all falsy. -/
def completedTruthy (m : StoreMessage) : Bool :=
  match m.time with
  | none => false
  | some tm =>
    match tm.completed with
    | none => false
    | some c => c != 0

/-- One part is a running task marker (line 105): `part.type === "tool" &&
part.tool === "task" && part.state?.status === "running"`. -/
def isRunningTaskPart (p : StorePart) : Bool :=
  p.type == "tool" && p.tool == some "task" &&
    (match p.state with
     | some s => s.status == "running"
     | none => false)

/-- The nested for-loops of SOURCE 2 (lines 97-111): scan the messages of
the session, skip any message without a parts entry (`continue`), and
return running on the first running task part. -/
def anyRunningTask (dir : DirectoryState) (sessionId : String) : Bool :=
  match dir.messages with
  | none => false
  | some msgs =>
    match alookup sessionId msgs with
    | none => false
    | some ms =>
      ms.any (fun m =>
        match dir.parts with
        | none => false
        | some pm =>
          match alookup m.id pm with
          | none => false
          | some ps => ps.any isRunningTaskPart)

/-- The SOURCE 3 bootstrap check (lines 114-122): the last stored message of
the session is an assistant message whose completion time is falsy. -/
def lastMessageRunning (dir : DirectoryState) (sessionId : String) : Bool :=
  match dir.messages with
  | none => false
  | some msgs =>
    match alookup sessionId msgs with
    | none => false
    | some ms =>
      match ms.getLast? with
      | none => false
      | some lm => lm.role == some "assistant" && !(completedTruthy lm)

/-- The explicit per-session status held in the store, defaulting to
"completed" (line 93): `dir.sessionStatus?.[sessionId] ?? "completed"`. -/
def explicitStatusOf (dir : DirectoryState) (sessionId : String) : String :=
  match dir.sessionStatus with
  | none => "completed"
  | some m => (alookup sessionId m).getD "completed"

/-- `deriveSessionStatus` (status-utils.ts lines 81-125), translated branch
by branch: missing directory short-circuits to "completed"; an explicit
"running" wins; then the sub-agent scan when enabled; then the bootstrap
last-message check when enabled; otherwise the explicit status. -/
def deriveSessionStatus (state : OpencodeState) (sessionId directory : String)
    (options : DeriveSessionStatusOptions) : String :=
  match alookup directory state.directories with
  | none => "completed"
  | some dir =>
    let mainStatus := explicitStatusOf dir sessionId
    if mainStatus = "running" then "running"
    else if options.includeSubAgents && anyRunningTask dir sessionId then "running"
    else if options.includeLastMessage && lastMessageRunning dir sessionId then "running"
    else mainStatus

/-- All parts attached to messages of a session, collected flatly from the
store collections; written from the words of the specification for the
refinement statement of claim C8. -/
def partsOfSession (dir : DirectoryState) (sessionId : String) : List StorePart :=
  match alookup sessionId (dir.messages.getD []) with
  | none => []
  | some ms => ms.flatMap (fun m => (alookup m.id (dir.parts.getD [])).getD [])

/-- Three-source priority as the specification words it, for the refinement
statement of claim C8: explicit "running" wins; otherwise, when sub-agent
checking is enabled, any tool part with tool "task" in a running sub-state
among all parts of all messages of the session gives "running"; otherwise,
when the bootstrap check is enabled, an assistant-authored most recent
message lacking a completion timestamp gives "running"; otherwise the
explicit status, defaulting to "completed". -/
def deriveSessionStatusSpec (state : OpencodeState) (sessionId directory : String)
    (options : DeriveSessionStatusOptions) : String :=
  match alookup directory state.directories with
  | none => "completed"
  | some dir =>
    if explicitStatusOf dir sessionId = "running" then "running"
    else if options.includeSubAgents
        && (partsOfSession dir sessionId).any isRunningTaskPart then "running"
    else if options.includeLastMessage && lastMessageRunning dir sessionId then "running"
    else explicitStatusOf dir sessionId

/- ----------------------------------------------------------------------
   use-subagent-sync.ts: reconciliation queue for out-of-order parts
   ---------------------------------------------------------------------- -/

/-- Message payload of a `message.created` or `message.updated` event. -/
structure Message where
  id : String
  sessionID : String
  deriving DecidableEq, Repr

/-- Part payload of a `message.part.created` or `message.part.updated`
event; a part names its owning message. -/
structure Part where
  id : String
  messageID : String
  deriving DecidableEq, Repr

/-- Calls issued to the `subagents` API, recorded in issue order. -/
inductive Dispatch where
  | addMessage (sessionID : String) (m : Message)
  | updateMessage (sessionID : String) (m : Message)
  | addPart (sessionID messageID : String) (p : Part)
  | updatePart (sessionID messageID : String) (p : Part)
  deriving DecidableEq, Repr

/-- The four event kinds `useSubagentSync` handles (use-subagent-sync.ts
lines 117-153); on the wire the part event types are
`message.part.created` and `message.part.updated`. -/
inductive SubEvent where
  | messageCreated (m : Message)
  | messageUpdated (m : Message)
  | partCreated (p : Part)
  | partUpdated (p : Part)
  deriving DecidableEq, Repr

/-- State of one `useSubagentSync` hook instance: the set of registered
subagent sessions (as read back by `subagents.getSessions`), the
messageID-to-sessionID map, the pending-parts queue, and the log of
subagents API calls issued so far. Resolution of the
`subagents.getSessions(...).then` promise is modelled as immediate and in
event order. -/
structure SubSyncState where
  registered : List String
  messageToSession : List (String × String)
  pendingParts : List (String × List Part)
  dispatched : List Dispatch
  deriving DecidableEq, Repr

/-- `flushPendingParts` (lines 77-85): when the queue holds an entry for
the message, issue `addPart` for each queued part in arrival order and
delete the entry; otherwise do nothing. -/
def flushPendingParts (messageId sessionId : String) (st : SubSyncState) : SubSyncState :=
  match alookup messageId st.pendingParts with
  | some pending =>
    { st with
        dispatched := st.dispatched ++ pending.map (fun p => .addPart sessionId p.messageID p),
        pendingParts := aerase messageId st.pendingParts }
  | none => st

/-- `handlePartEvent` (lines 87-103): a part whose message is already
mapped is dispatched directly (`updatePart` for updates, `addPart`
otherwise); a part whose message is unknown is appended to the pending
queue under its own messageID. -/
def handlePartEvent (p : Part) (isUpdate : Bool) (st : SubSyncState) : SubSyncState :=
  match alookup p.messageID st.messageToSession with
  | some sessionID =>
    { st with
        dispatched := st.dispatched ++
          [if isUpdate then .updatePart sessionID p.messageID p
           else .addPart sessionID p.messageID p] }
  | none =>
    { st with
        pendingParts :=
          aset p.messageID ((alookup p.messageID st.pendingParts).getD [] ++ [p])
            st.pendingParts }

/-- The `onEvent` dispatch of `useSubagentSync` (lines 106-155): message
events whose sessionID is not registered as a subagent are ignored; a
registered `message.created` records the mapping, issues `addMessage` and
then flushes the queue for that message; a registered `message.updated`
records the mapping and issues `updateMessage` without flushing; part
events go through `handlePartEvent`. -/
def handleSubEvent (st : SubSyncState) : SubEvent → SubSyncState
  | .messageCreated m =>
    if m.sessionID ∈ st.registered then
      flushPendingParts m.id m.sessionID
        { st with
            messageToSession := aset m.id m.sessionID st.messageToSession,
            dispatched := st.dispatched ++ [.addMessage m.sessionID m] }
    else st
  | .messageUpdated m =>
    if m.sessionID ∈ st.registered then
      { st with
          messageToSession := aset m.id m.sessionID st.messageToSession,
          dispatched := st.dispatched ++ [.updateMessage m.sessionID m] }
    else st
  | .partCreated p => handlePartEvent p false st
  | .partUpdated p => handlePartEvent p true st

/-- The directory filter of the subscription (lines 110-113): with a
configured directory, events from other directories are dropped before
dispatch. -/
def onSubEvent (optDir : Option String) (eventDir : String) (st : SubSyncState)
    (e : SubEvent) : SubSyncState :=
  match optDir with
  | some d => if eventDir ≠ d then st else handleSubEvent st e
  | none => handleSubEvent st e

/-- Initial hook state for a fixed set of registered subagent sessions:
empty mapping, empty queue, nothing dispatched. -/
def initSubSync (registered : List String) : SubSyncState :=
  ⟨registered, [], [], []⟩

/-- Run a trace of events in arrival order. -/
def runSubEvents (st : SubSyncState) (evs : List SubEvent) : SubSyncState :=
  evs.foldl handleSubEvent st

/-- The parts carried by the part events of a trace that reference message
`mid`, in arrival order. -/
def partsForMessage (mid : String) (evs : List SubEvent) : List Part :=
  evs.filterMap (fun e =>
    match e with
    | .partCreated p => if p.messageID = mid then some p else none
    | .partUpdated p => if p.messageID = mid then some p else none
    | _ => none)

/-- A dispatch is a part dispatch referencing message `mid`. -/
def partDispatchFor (mid : String) : Dispatch → Bool
  | .addPart _ mid2 _ => mid2 = mid
  | .updatePart _ mid2 _ => mid2 = mid
  | _ => false

/-- Queue well-formedness: every queued part sits under the key naming its
own message; `handlePartEvent` establishes this by construction. -/
def QueueWF (st : SubSyncState) : Prop :=
  ∀ k ps, alookup k st.pendingParts = some ps → ∀ p ∈ ps, p.messageID = k

/- ----------------------------------------------------------------------
   core/world/merged-stream.ts (spec-modelled; only its tests are in the
   source snapshot) and core server discovery (spec-modelled; only its
   callers are in the source snapshot)
   ---------------------------------------------------------------------- -/

/-- One event of a source stream, shaped as in merged-stream.test.ts lines
16-32: tagged with the originating source name, an event type, an opaque
data payload, a timestamp and an optional sequence number. -/
structure SourceEvent where
  source : String
  type : String
  data : String
  timestamp : Nat
  sequence : Option Nat
  deriving DecidableEq, Repr

/-- Outcome of running one source's stream to completion: the events it
emits in order, then an optional mid-stream error. -/
structure SourceStream where
  events : List SourceEvent
  failure : Option String
  deriving DecidableEq, Repr

instance exceptDecidableEq {e2 α : Type} [DecidableEq e2] [DecidableEq α] :
    DecidableEq (Except e2 α) := fun a b =>
  match a, b with
  | .ok x, .ok y =>
    if h : x = y then isTrue (by rw [h])
    else isFalse (by intro hh; injection hh with hh; exact h hh)
  | .ok _, .error _ => isFalse (by intro hh; cases hh)
  | .error _, .ok _ => isFalse (by intro hh; cases hh)
  | .error e, .error e3 =>
    if h : e = e3 then isTrue (by rw [h])
    else isFalse (by intro hh; injection hh with hh; exact h hh)

/-- Modelled from the spec: the `EventSource` contract of core/world
(spec section 4.2), whose implementation (event-source.ts) is absent from
the source snapshot; `availableResult` is the outcome of evaluating
`available()`, which may succeed with a boolean or throw. -/
structure EventSource where
  name : String
  availableResult : Except String Bool
  stream : SourceStream
  deriving DecidableEq, Repr

/-- Modelled from the spec (section 4.2 step 1): a source is subscribed
exactly when `available()` yields true; a thrown availability check is
treated as false. -/
def isAvailable (s : EventSource) : Bool :=
  match s.availableResult with
  | .ok b => b
  | .error _ => false

/-- The sources the merged stream subscribes to. -/
def availableSources (ss : List EventSource) : List EventSource :=
  ss.filter isAvailable

/-- Modelled from the spec: first mid-stream failure among the subscribed
sources, if any (fail-fast, spec section 4.2 step 5). -/
def firstFailure : List EventSource → Option String
  | [] => none
  | s :: rest =>
    match s.stream.failure with
    | some e => some e
    | none => firstFailure rest

/-- Modelled from the spec: running the stream of `createMergedWorldStream`
of core/world/merged-stream.ts, whose implementation is absent from the
source snapshot (only merged-stream.test.ts is present). The run either
fails with a subscribed source's mid-stream error (fail-fast) or yields
the events of all subscribed sources; the spec imposes only per-source
order, so cross-source interleaving is modelled as source-order
concatenation. -/
def mergedRun (ss : List EventSource) : Except String (List SourceEvent) :=
  match firstFailure (availableSources ss) with
  | some e => .error e
  | none => .ok ((availableSources ss).flatMap (fun s => s.stream.events))

/-- Modelled from the spec (section 4.2 step 6): `dispose()` tears down
every active subscription and is safe to call, also repeatedly; it never
fails. -/
def disposeMerged (_ss : List EventSource) : Except String Unit := .ok ()

/-- A source whose availability check throws, rewritten to one returning
false; claim C3 states the merge treats the two identically. -/
def availErrToFalse (s : EventSource) : EventSource :=
  match s.availableResult with
  | .error _ => { s with availableResult := .ok false }
  | .ok _ => s

/-- A discovered server: its address and scoped directory. -/
structure ServerInfo where
  url : String
  directory : String
  deriving DecidableEq, Repr

/-- The well-known fallback entry: the default local address on port 4056
with empty directory, as the callers in use-multi-directory-sessions.ts
document ("falls back to localhost:4056"). -/
def defaultServer : ServerInfo := ⟨"http://localhost:4056", ""⟩

/-- Modelled from the spec: the reachable candidates among the probe
outcomes of `servers.discover()`, whose implementation is absent from the
source snapshot (only its callers `useServers` and `useCurrentServer`
are present); each candidate probe either reaches a server or fails, and
failed probes are swallowed and excluded (spec section 4.1). -/
def probeResults (probes : List (Except String ServerInfo)) : List ServerInfo :=
  probes.filterMap (fun p =>
    match p with
    | .ok s => some s
    | .error _ => none)

/-- Modelled from the spec: `servers.discover()` — on zero reachable
candidates or total failure it returns the single well-known fallback
entry; it is a total function into a plain list, so it never throws. -/
def discover (probes : List (Except String ServerInfo)) : List ServerInfo :=
  match probeResults probes with
  | [] => [defaultServer]
  | found => found

theorem alookup_aset_self {α : Type} (k : String) (v : α) (l : List (String × α)) :
    alookup k (aset k v l) = some v := by
  induction l with
  | nil => simp [aset, alookup]
  | cons h t ih =>
    obtain ⟨k2, v2⟩ := h
    by_cases hk : k2 = k <;> simp [aset, alookup, hk, ih]

theorem alookup_aset_ne {α : Type} (k k2 : String) (v : α) (l : List (String × α))
    (h : k2 ≠ k) : alookup k2 (aset k v l) = alookup k2 l := by
  induction l with
  | nil =>
    simp only [aset, alookup]
    rw [if_neg (fun hh => h hh.symm)]
  | cons hd t ih =>
    obtain ⟨k3, v3⟩ := hd
    by_cases hk : k3 = k
    · subst hk
      simp only [aset, if_pos rfl, alookup]
      rw [if_neg (fun hh => h hh.symm), if_neg (fun hh => h hh.symm)]
    · simp only [aset, if_neg hk, alookup]
      by_cases hk2 : k3 = k2
      · rw [if_pos hk2, if_pos hk2]
      · rw [if_neg hk2, if_neg hk2, ih]

theorem alookup_aerase_self {α : Type} (k : String) (l : List (String × α)) :
    alookup k (aerase k l) = none := by
  induction l with
  | nil => simp [aerase, alookup]
  | cons hd t ih =>
    obtain ⟨k2, v2⟩ := hd
    by_cases hk : k2 = k
    · simp [aerase, hk, ih]
    · simp [aerase, hk, alookup, ih]

theorem alookup_aerase_ne {α : Type} (k k2 : String) (l : List (String × α))
    (h : k2 ≠ k) : alookup k2 (aerase k l) = alookup k2 l := by
  induction l with
  | nil => simp [aerase]
  | cons hd t ih =>
    obtain ⟨k3, v3⟩ := hd
    by_cases hk : k3 = k
    · subst hk
      have he : aerase k3 ((k3, v3) :: t) = aerase k3 t := by simp [aerase]
      rw [he, ih, alookup, if_neg (fun hh => h hh.symm)]
    · simp only [aerase, if_neg hk, alookup]
      by_cases hk2 : k3 = k2
      · rw [if_pos hk2, if_pos hk2]
      · rw [if_neg hk2, if_neg hk2, ih]

/-- Claim C1: after a busy signal has set the visible status to running, an
idle signal does not immediately change the visible status but replaces the
(at most one) cooldown timer with one expiring exactly `cd` after the idle
signal, where `cd` is `options.cooldownMs` defaulting to 60000 ms; a busy
signal processed before the deadline cancels the timer and the status stays
running from then on; with no intervening busy signal the visible status is
still running strictly before the deadline and becomes not running exactly
from the deadline on; a second idle signal while the timer is pending
replaces the deadline with its own, so the transition happens exactly one
cooldown after the last idle signal. -/
theorem useSessionStatus_cooldown_hysteresis (cd t tq tb ti : Nat)
    (hb : tb < t + cd) (hi : ti < t + cd) :
    resolveCooldownMs none = 60000 ∧
    (∀ c, resolveCooldownMs (some c) = c) ∧
    stepSignal cd ⟨true, none⟩ (t, .idle) = ⟨true, some (t + cd)⟩ ∧
    (fireIfDue tq (stepSignal cd ⟨true, none⟩ (t, .idle))).running = decide (tq < t + cd) ∧
    fireIfDue tb (stepSignal cd ⟨true, none⟩ (t, .idle))
      = stepSignal cd ⟨true, none⟩ (t, .idle) ∧
    stepSignal cd (stepSignal cd ⟨true, none⟩ (t, .idle)) (tb, .busy) = ⟨true, none⟩ ∧
    (∀ tq2, (fireIfDue tq2
        (stepSignal cd (stepSignal cd ⟨true, none⟩ (t, .idle)) (tb, .busy))).running = true) ∧
    stepSignal cd (stepSignal cd ⟨true, none⟩ (t, .idle)) (ti, .idle) = ⟨true, some (ti + cd)⟩ ∧
    (fireIfDue tq
        (stepSignal cd (stepSignal cd ⟨true, none⟩ (t, .idle)) (ti, .idle))).running
      = decide (tq < ti + cd) := by
  have hstep1 : stepSignal cd ⟨true, none⟩ (t, .idle)
      = (⟨true, some (t + cd)⟩ : CooldownState) := by
    simp [stepSignal, fireIfDue, applyIdle]
  refine ⟨rfl, fun c => rfl, hstep1, ?_, ?_, ?_, ?_, ?_, ?_⟩
  · rw [hstep1]
    simp only [fireIfDue]
    by_cases h : t + cd ≤ tq
    · rw [if_pos h]
      simp [decide_eq_false_iff_not]
      omega
    · rw [if_neg h]
      simp [decide_eq_true_eq]
      omega
  · rw [hstep1]
    simp only [fireIfDue]
    rw [if_neg (by omega : ¬ t + cd ≤ tb)]
  · rw [hstep1]
    simp [stepSignal, fireIfDue, applyBusy]
  · intro tq2
    rw [hstep1]
    simp [stepSignal, fireIfDue, applyBusy]
  · rw [hstep1]
    simp only [stepSignal, fireIfDue]
    rw [if_neg (by omega : ¬ t + cd ≤ ti)]
    simp [applyIdle]
  · rw [hstep1]
    simp only [stepSignal, fireIfDue]
    rw [if_neg (by omega : ¬ t + cd ≤ ti)]
    simp only [applyIdle]
    by_cases h : ti + cd ≤ tq
    · rw [if_pos h]
      simp [decide_eq_false_iff_not]
      omega
    · rw [if_neg h]
      simp [decide_eq_true_eq]
      omega

/-- Witness for C1 at cooldown 60000, idle at 0, query at 30000, busy at
40000, second idle at 5000. -/
theorem useSessionStatus_cooldown_hysteresis_witness :
    ((40000 : Nat) < 0 + 60000 ∧ (5000 : Nat) < 0 + 60000) ∧
    stepSignal 60000 ⟨true, none⟩ (0, Signal.idle) = ⟨true, some (0 + 60000)⟩ :=
  ⟨⟨by decide, by decide⟩,
    (useSessionStatus_cooldown_hysteresis 60000 0 30000 40000 5000
      (by decide) (by decide)).2.2.1⟩

/-- Counterexample to claim C6: a `session.status` event for the tracked
session whose property bag lacks the `status` field makes `handleEvent`
throw a TypeError instead of ignoring the event. -/
theorem useSessionStatus_handleEvent_throws_on_missing_status :
    handleEvent "ses_123" 60000 0 ⟨false, none⟩
      ⟨"/dir", "session.status", ⟨some "ses_123", none⟩⟩ =
      Except.error "TypeError: cannot read type of undefined" := by
  rfl

/-- Claim C6 (amended): an event whose type is not `session.status`, or
whose properties lack `sessionID` or carry one different from the tracked
session, is ignored with the visible status unchanged, and any event whose
`status` property is present is processed without throwing; but a
`session.status` event for the tracked session whose properties lack the
`status` object throws a TypeError at the dispatch boundary instead of
being ignored. -/
theorem useSessionStatus_handleEvent_dispatch (sessionId : String) (cd t : Nat)
    (st : CooldownState) (e : StatusEvent) :
    (e.payloadType ≠ "session.status" → handleEvent sessionId cd t st e = .ok st) ∧
    (e.properties.sessionID ≠ some sessionId → handleEvent sessionId cd t st e = .ok st) ∧
    (∀ sv, e.properties.status = some sv → ∃ st2, handleEvent sessionId cd t st e = .ok st2) ∧
    (e.payloadType = "session.status" → e.properties.sessionID = some sessionId →
      e.properties.status = none →
      handleEvent sessionId cd t st e = .error "TypeError: cannot read type of undefined") := by
  refine ⟨?_, ?_, ?_, ?_⟩
  · intro h
    simp [handleEvent, h]
  · intro h
    by_cases ht : e.payloadType = "session.status"
    · simp [handleEvent, ht, h]
    · simp [handleEvent, ht]
  · intro sv hsv
    by_cases ht : e.payloadType = "session.status"
    · by_cases hs : e.properties.sessionID = some sessionId
      · by_cases hbusy : sv.type = "busy"
        · exact ⟨applyBusy st, by simp [handleEvent, ht, hs, hsv, hbusy]⟩
        · exact ⟨applyIdle cd t st, by simp [handleEvent, ht, hs, hsv, hbusy]⟩
      · exact ⟨st, by simp [handleEvent, ht, hs]⟩
    · exact ⟨st, by simp [handleEvent, ht]⟩
  · intro ht hs hnone
    simp [handleEvent, ht, hs, hnone]

/-- Witness for the amended C6 at a concrete ignored event: a
`message.created` event leaves the state untouched. -/
theorem useSessionStatus_handleEvent_dispatch_witness :
    (StatusEvent.mk "/dir" "message.created" ⟨none, none⟩).payloadType ≠ "session.status" ∧
    handleEvent "ses_123" 60000 0 ⟨false, none⟩
      (StatusEvent.mk "/dir" "message.created" ⟨none, none⟩) = Except.ok ⟨false, none⟩ :=
  ⟨by decide,
    (useSessionStatus_handleEvent_dispatch "ses_123" 60000 0 ⟨false, none⟩
      (StatusEvent.mk "/dir" "message.created" ⟨none, none⟩)).1 (by decide)⟩

theorem any_flatMap {α β : Type} (l : List α) (f : α → List β) (p : β → Bool) :
    (l.flatMap f).any p = l.any (fun a => (f a).any p) := by
  induction l with
  | nil => rfl
  | cons hd tl ih => simp [ih]

theorem any_ext {α : Type} (l : List α) (p q : α → Bool)
    (h : ∀ a ∈ l, p a = q a) : l.any p = l.any q := by
  induction l with
  | nil => rfl
  | cons hd tl ih =>
    simp only [List.any_cons]
    rw [h hd (List.mem_cons_self hd tl), ih (fun a ha => h a (List.mem_cons_of_mem hd ha))]

theorem anyRunningTask_eq_spec (dir : DirectoryState) (sessionId : String) :
    anyRunningTask dir sessionId = (partsOfSession dir sessionId).any isRunningTaskPart := by
  unfold anyRunningTask partsOfSession
  cases hmsgs : dir.messages with
  | none =>
    simp only [Option.getD]
    simp [alookup]
  | some msgs =>
    simp only [Option.getD]
    cases hms : alookup sessionId msgs with
    | none => simp
    | some ms =>
      simp only
      rw [any_flatMap]
      apply any_ext
      intro m _
      cases hps : dir.parts with
      | none =>
        simp only [Option.getD]
        simp [alookup]
      | some pm =>
        simp only [Option.getD]
        cases hp : alookup m.id pm with
        | none => simp
        | some ps => simp

/-- Claim C8: `deriveSessionStatus` implements the three-source priority
exactly as the specification words it; the code-side nested loops with
`continue` coincide on every store state with the declarative priority
chain over the flat list of the parts of all messages of the session. -/
theorem deriveSessionStatus_three_source_priority (state : OpencodeState)
    (sessionId directory : String) (options : DeriveSessionStatusOptions) :
    deriveSessionStatus state sessionId directory options
      = deriveSessionStatusSpec state sessionId directory options := by
  unfold deriveSessionStatus deriveSessionStatusSpec
  cases hdir : alookup directory state.directories with
  | none => rfl
  | some dir =>
    simp only
    rw [anyRunningTask_eq_spec]

/-- Claim C10: `deriveSessionStatus` is total (a Lean function on all store
states) and defaults to "completed": a directory with no store entry gives
"completed"; a session with no recorded explicit status, no running task
part and no triggered bootstrap check gives "completed"; and for a session
with no recorded explicit status the result is only ever "running" or
"completed", never a fabricated "pending" or "error". -/
theorem deriveSessionStatus_total_default (state : OpencodeState)
    (sessionId directory : String) (options : DeriveSessionStatusOptions)
    (dir : DirectoryState) :
    (alookup directory state.directories = none →
      deriveSessionStatus state sessionId directory options = "completed") ∧
    (alookup directory state.directories = some dir →
      dir.sessionStatus.bind (alookup sessionId) = none →
      anyRunningTask dir sessionId = false →
      (options.includeLastMessage = false ∨ lastMessageRunning dir sessionId = false) →
      deriveSessionStatus state sessionId directory options = "completed") ∧
    (alookup directory state.directories = some dir →
      dir.sessionStatus.bind (alookup sessionId) = none →
      (deriveSessionStatus state sessionId directory options = "running" ∨
        deriveSessionStatus state sessionId directory options = "completed")) := by
  have hmain : dir.sessionStatus.bind (alookup sessionId) = none →
      explicitStatusOf dir sessionId = "completed" := by
    intro hnone
    unfold explicitStatusOf
    cases hss : dir.sessionStatus with
    | none => rfl
    | some m =>
      rw [hss] at hnone
      simp only [Option.some_bind] at hnone
      show (alookup sessionId m).getD "completed" = "completed"
      rw [hnone]
      rfl
  refine ⟨?_, ?_, ?_⟩
  · intro h
    unfold deriveSessionStatus
    rw [h]
  · intro h hnone htask hboot
    unfold deriveSessionStatus
    rw [h]
    simp only [hmain hnone, htask]
    have hns : ("completed" : String) = "running" ↔ False := by
      constructor
      · intro hc
        exact absurd hc (by decide)
      · exact False.elim
    rw [if_neg (by decide : ¬ ("completed" : String) = "running")]
    simp only [Bool.and_false, Bool.false_eq_true, if_false]
    rcases hboot with hb | hb
    · rw [hb]
      simp
    · rw [hb]
      simp
  · intro h hnone
    unfold deriveSessionStatus
    rw [h]
    simp only [hmain hnone]
    rw [if_neg (by decide : ¬ ("completed" : String) = "running")]
    by_cases h1 : options.includeSubAgents && anyRunningTask dir sessionId
    · rw [if_pos h1]
      exact Or.inl rfl
    · rw [if_neg h1]
      by_cases h2 : options.includeLastMessage && lastMessageRunning dir sessionId
      · rw [if_pos h2]
        exact Or.inl rfl
      · rw [if_neg h2]
        exact Or.inr rfl

/-- Witness for C10 at the empty store: a directory with no entry gives
"completed". -/
theorem deriveSessionStatus_total_default_witness :
    alookup "/proj" (OpencodeState.mk []).directories = none ∧
    deriveSessionStatus (OpencodeState.mk []) "ses_1" "/proj"
      ⟨true, false⟩ = "completed" :=
  ⟨rfl,
    (deriveSessionStatus_total_default (OpencodeState.mk []) "ses_1" "/proj"
      ⟨true, false⟩ ⟨none, none, none⟩).1 rfl⟩

/-- Counterexample to claim C2: with session "s1" registered, a part for
message "m1" arrives before its message and is queued; the Message event
that then arrives for "m1" is a `message.updated`, which records the
messageID-to-sessionID mapping but does not flush: the queue entry
survives and no `addPart` is dispatched, contradicting the claim that any
Message event for the messageID flushes the queued parts and clears the
entry. -/
theorem useSubagentSync_messageUpdated_does_not_flush :
    runSubEvents (initSubSync ["s1"])
      [.partCreated ⟨"p1", "m1"⟩, .messageUpdated ⟨"m1", "s1"⟩]
      = ⟨["s1"], [("m1", "s1")], [("m1", [⟨"p1", "m1"⟩])],
          [.updateMessage "s1" ⟨"m1", "s1"⟩]⟩ := by
  rfl

/-- Claim C2 (amended): a part event whose messageID is not yet mapped is
appended exactly once to the pending queue for that messageID with nothing
dispatched; on arrival of a `message.created` event for that messageID
whose sessionID is registered, the mapping is recorded and every queued
part is flushed to the session, in original arrival order, right after the
`addMessage` call, and the queue entry is cleared — so a repeated
`message.created` flushes nothing further and no queued part is dispatched
twice; a `message.updated` event records the mapping but flushes
nothing. -/
theorem useSubagentSync_queue_flush (st : SubSyncState) (m : Message) (p : Part)
    (ps : List Part)
    (hreg : m.sessionID ∈ st.registered)
    (hq : alookup m.id st.pendingParts = some ps)
    (hunmapped : alookup p.messageID st.messageToSession = none) :
    ((handleSubEvent st (.partCreated p)).pendingParts
        = aset p.messageID ((alookup p.messageID st.pendingParts).getD [] ++ [p])
            st.pendingParts ∧
      (handleSubEvent st (.partCreated p)).dispatched = st.dispatched ∧
      (handleSubEvent st (.partCreated p)).messageToSession = st.messageToSession) ∧
    (alookup m.id (handleSubEvent st (.messageCreated m)).messageToSession
        = some m.sessionID ∧
      (handleSubEvent st (.messageCreated m)).dispatched
        = st.dispatched ++ [.addMessage m.sessionID m]
            ++ ps.map (fun q => .addPart m.sessionID q.messageID q) ∧
      alookup m.id (handleSubEvent st (.messageCreated m)).pendingParts = none) ∧
    (handleSubEvent (handleSubEvent st (.messageCreated m)) (.messageCreated m)).dispatched
      = (handleSubEvent st (.messageCreated m)).dispatched
          ++ [.addMessage m.sessionID m] := by
  have hpart : handleSubEvent st (.partCreated p)
      = { st with
            pendingParts :=
              aset p.messageID ((alookup p.messageID st.pendingParts).getD [] ++ [p])
                st.pendingParts } := by
    simp [handleSubEvent, handlePartEvent, hunmapped]
  have hcreated : handleSubEvent st (.messageCreated m)
      = { st with
            messageToSession := aset m.id m.sessionID st.messageToSession,
            dispatched := st.dispatched ++ [.addMessage m.sessionID m]
              ++ ps.map (fun q => .addPart m.sessionID q.messageID q),
            pendingParts := aerase m.id st.pendingParts } := by
    simp only [handleSubEvent, if_pos hreg, flushPendingParts, hq]
  refine ⟨⟨?_, ?_, ?_⟩, ⟨?_, ?_, ?_⟩, ?_⟩
  · rw [hpart]
  · rw [hpart]
  · rw [hpart]
  · rw [hcreated]
    exact alookup_aset_self m.id m.sessionID st.messageToSession
  · rw [hcreated]
  · rw [hcreated]
    exact alookup_aerase_self m.id st.pendingParts
  · rw [hcreated]
    simp only [handleSubEvent, if_pos hreg, flushPendingParts]
    rw [alookup_aerase_self m.id st.pendingParts]

/-- Witness for the amended C2 at a one-part queue: with "s1" registered
and part "p1" queued for "m1", the `message.created` for "m1" dispatches
`addMessage` then the queued `addPart` and clears the entry. -/
theorem useSubagentSync_queue_flush_witness :
    (("s1" : String) ∈ (initSubSync ["s1"]).registered ∧
      alookup "m1" (runSubEvents (initSubSync ["s1"])
        [SubEvent.partCreated ⟨"p1", "m1"⟩]).pendingParts = some [⟨"p1", "m1"⟩]) ∧
    (handleSubEvent (runSubEvents (initSubSync ["s1"])
        [SubEvent.partCreated ⟨"p1", "m1"⟩])
        (.messageCreated ⟨"m1", "s1"⟩)).dispatched
      = [.addMessage "s1" ⟨"m1", "s1"⟩, .addPart "s1" "m1" ⟨"p1", "m1"⟩] :=
  ⟨⟨by decide, by rfl⟩, by
    have h := (useSubagentSync_queue_flush
      (runSubEvents (initSubSync ["s1"]) [SubEvent.partCreated ⟨"p1", "m1"⟩])
      ⟨"m1", "s1"⟩ ⟨"p1", "m1"⟩ [⟨"p1", "m1"⟩]
      (by decide) (by rfl) (by rfl)).2.1.2.1
    simpa using h⟩

theorem flushPendingParts_registered (mid sid : String) (st : SubSyncState) :
    (flushPendingParts mid sid st).registered = st.registered := by
  unfold flushPendingParts
  cases alookup mid st.pendingParts <;> rfl

theorem handlePartEvent_registered (p : Part) (b : Bool) (st : SubSyncState) :
    (handlePartEvent p b st).registered = st.registered := by
  unfold handlePartEvent
  cases alookup p.messageID st.messageToSession <;> rfl

theorem handleSubEvent_registered (st : SubSyncState) (e : SubEvent) :
    (handleSubEvent st e).registered = st.registered := by
  cases e with
  | messageCreated m =>
    simp only [handleSubEvent]
    by_cases h : m.sessionID ∈ st.registered
    · rw [if_pos h, flushPendingParts_registered]
    · rw [if_neg h]
  | messageUpdated m =>
    simp only [handleSubEvent]
    by_cases h : m.sessionID ∈ st.registered
    · rw [if_pos h]
    · rw [if_neg h]
  | partCreated p => exact handlePartEvent_registered p false st
  | partUpdated p => exact handlePartEvent_registered p true st

theorem flushPendingParts_cases (mid2 sid : String) (st : SubSyncState) :
    (alookup mid2 st.pendingParts = none ∧ flushPendingParts mid2 sid st = st) ∨
    (∃ pending, alookup mid2 st.pendingParts = some pending ∧
      flushPendingParts mid2 sid st
        = { st with
              dispatched := st.dispatched
                ++ pending.map (fun p => .addPart sid p.messageID p),
              pendingParts := aerase mid2 st.pendingParts }) := by
  unfold flushPendingParts
  cases hq : alookup mid2 st.pendingParts with
  | none => exact Or.inl ⟨rfl, rfl⟩
  | some pending => exact Or.inr ⟨pending, rfl, rfl⟩

theorem handlePartEvent_eq_mapped (p : Part) (b : Bool) (st : SubSyncState) (sid : String)
    (hm : alookup p.messageID st.messageToSession = some sid) :
    handlePartEvent p b st
      = { st with
            dispatched := st.dispatched ++
              [if b then Dispatch.updatePart sid p.messageID p
               else Dispatch.addPart sid p.messageID p] } := by
  unfold handlePartEvent
  rw [hm]

theorem handlePartEvent_eq_unmapped (p : Part) (b : Bool) (st : SubSyncState)
    (hm : alookup p.messageID st.messageToSession = none) :
    handlePartEvent p b st
      = { st with
            pendingParts :=
              aset p.messageID ((alookup p.messageID st.pendingParts).getD [] ++ [p])
                st.pendingParts } := by
  unfold handlePartEvent
  rw [hm]

theorem queueWF_flush (mid2 sid : String) (st : SubSyncState) (h : QueueWF st) :
    QueueWF (flushPendingParts mid2 sid st) := by
  rcases flushPendingParts_cases mid2 sid st with ⟨_, heq⟩ | ⟨pending, _, heq⟩
  · rw [heq]; exact h
  · rw [heq]
    intro k ps hk p hp
    replace hk : alookup k (aerase mid2 st.pendingParts) = some ps := hk
    by_cases hkm : k = mid2
    · rw [hkm, alookup_aerase_self] at hk
      cases hk
    · rw [alookup_aerase_ne mid2 k st.pendingParts hkm] at hk
      exact h k ps hk p hp

theorem queueWF_handlePart (p : Part) (b : Bool) (st : SubSyncState) (h : QueueWF st) :
    QueueWF (handlePartEvent p b st) := by
  cases hm : alookup p.messageID st.messageToSession with
  | some sid =>
    rw [handlePartEvent_eq_mapped p b st sid hm]
    exact h
  | none =>
    rw [handlePartEvent_eq_unmapped p b st hm]
    intro k ps hk q hq
    replace hk : alookup k
        (aset p.messageID ((alookup p.messageID st.pendingParts).getD [] ++ [p])
          st.pendingParts) = some ps := hk
    by_cases hkm : k = p.messageID
    · rw [hkm, alookup_aset_self] at hk
      injection hk with hk
      subst hk
      rw [hkm]
      rcases List.mem_append.mp hq with hq | hq
      · cases hold : alookup p.messageID st.pendingParts with
        | none =>
          rw [hold] at hq
          simp at hq
        | some old =>
          rw [hold] at hq
          exact h p.messageID old hold q (by simpa using hq)
      · simp only [List.mem_singleton] at hq
        subst hq
        rfl
    · rw [alookup_aset_ne p.messageID k _ st.pendingParts hkm] at hk
      exact h k ps hk q hq

theorem queueWF_step (st : SubSyncState) (e : SubEvent) (h : QueueWF st) :
    QueueWF (handleSubEvent st e) := by
  cases e with
  | messageCreated m =>
    simp only [handleSubEvent]
    by_cases hr : m.sessionID ∈ st.registered
    · rw [if_pos hr]
      exact queueWF_flush m.id m.sessionID _ h
    · rw [if_neg hr]
      exact h
  | messageUpdated m =>
    simp only [handleSubEvent]
    by_cases hr : m.sessionID ∈ st.registered
    · rw [if_pos hr]
      exact h
    · rw [if_neg hr]
      exact h
  | partCreated p => exact queueWF_handlePart p false st h
  | partUpdated p => exact queueWF_handlePart p true st h

theorem partsForMessage_cons (mid : String) (e : SubEvent) (evs : List SubEvent) :
    partsForMessage mid (e :: evs) = partsForMessage mid [e] ++ partsForMessage mid evs := by
  cases e with
  | messageCreated m => simp [partsForMessage]
  | messageUpdated m => simp [partsForMessage]
  | partCreated p => by_cases h : p.messageID = mid <;> simp [partsForMessage, h]
  | partUpdated p => by_cases h : p.messageID = mid <;> simp [partsForMessage, h]

theorem handlePartEvent_no_flush (mid : String) (p : Part) (b : Bool) (st : SubSyncState)
    (hmap : alookup mid st.messageToSession = none) :
    alookup mid (handlePartEvent p b st).messageToSession = none ∧
    (alookup mid (handlePartEvent p b st).pendingParts).getD []
      = (alookup mid st.pendingParts).getD []
          ++ (if p.messageID = mid then [p] else []) ∧
    (∀ d ∈ (handlePartEvent p b st).dispatched,
      d ∈ st.dispatched ∨ partDispatchFor mid d = false) := by
  cases hm : alookup p.messageID st.messageToSession with
  | some sid =>
    have hne : p.messageID ≠ mid := by
      intro hh
      rw [hh, hmap] at hm
      cases hm
    rw [handlePartEvent_eq_mapped p b st sid hm, if_neg hne, List.append_nil]
    refine ⟨hmap, rfl, ?_⟩
    intro d hd
    replace hd : d ∈ st.dispatched ++
        [if b then Dispatch.updatePart sid p.messageID p
         else Dispatch.addPart sid p.messageID p] := hd
    rcases List.mem_append.mp hd with hd | hd
    · exact Or.inl hd
    · right
      simp only [List.mem_singleton] at hd
      subst hd
      cases b <;> simp [partDispatchFor, hne]
  | none =>
    rw [handlePartEvent_eq_unmapped p b st hm]
    refine ⟨hmap, ?_, fun d hd => Or.inl hd⟩
    by_cases hne : p.messageID = mid
    · subst hne
      show (alookup p.messageID
          (aset p.messageID ((alookup p.messageID st.pendingParts).getD [] ++ [p])
            st.pendingParts)).getD [] = _
      rw [alookup_aset_self, if_pos rfl]
      simp
    · rw [if_neg hne, List.append_nil]
      show (alookup mid
          (aset p.messageID ((alookup p.messageID st.pendingParts).getD [] ++ [p])
            st.pendingParts)).getD [] = (alookup mid st.pendingParts).getD []
      rw [alookup_aset_ne p.messageID mid _ st.pendingParts (fun hh => hne hh.symm)]

theorem handleSubEvent_no_flush_step (mid : String) (st : SubSyncState) (e : SubEvent)
    (hwf : QueueWF st)
    (hmap : alookup mid st.messageToSession = none)
    (hev : ∀ msg : Message, (e = .messageCreated msg ∨ e = .messageUpdated msg) →
      msg.id = mid → msg.sessionID ∉ st.registered) :
    alookup mid (handleSubEvent st e).messageToSession = none ∧
    (alookup mid (handleSubEvent st e).pendingParts).getD []
      = (alookup mid st.pendingParts).getD [] ++ partsForMessage mid [e] ∧
    (∀ d ∈ (handleSubEvent st e).dispatched,
      d ∈ st.dispatched ∨ partDispatchFor mid d = false) := by
  cases e with
  | messageCreated m =>
    have hparts0 : partsForMessage mid [SubEvent.messageCreated m] = [] := rfl
    rw [hparts0, List.append_nil]
    by_cases hr : m.sessionID ∈ st.registered
    · have hne : m.id ≠ mid := fun hidm => hev m (Or.inl rfl) hidm hr
      have heq : handleSubEvent st (.messageCreated m)
          = flushPendingParts m.id m.sessionID
              { st with
                  messageToSession := aset m.id m.sessionID st.messageToSession,
                  dispatched := st.dispatched ++ [Dispatch.addMessage m.sessionID m] } := by
        simp [handleSubEvent, hr]
      rw [heq]
      rcases flushPendingParts_cases m.id m.sessionID
          { st with
              messageToSession := aset m.id m.sessionID st.messageToSession,
              dispatched := st.dispatched ++ [Dispatch.addMessage m.sessionID m] }
        with ⟨hq, hfe⟩ | ⟨pending, hq, hfe⟩
      · rw [hfe]
        refine ⟨?_, rfl, ?_⟩
        · show alookup mid (aset m.id m.sessionID st.messageToSession) = none
          rw [alookup_aset_ne m.id mid m.sessionID st.messageToSession
            (fun hh => hne hh.symm), hmap]
        · intro d hd
          replace hd : d ∈ st.dispatched ++ [Dispatch.addMessage m.sessionID m] := hd
          rcases List.mem_append.mp hd with hd | hd
          · exact Or.inl hd
          · right
            simp only [List.mem_singleton] at hd
            subst hd
            rfl
      · rw [hfe]
        have hq0 : alookup m.id st.pendingParts = some pending := hq
        refine ⟨?_, ?_, ?_⟩
        · show alookup mid (aset m.id m.sessionID st.messageToSession) = none
          rw [alookup_aset_ne m.id mid m.sessionID st.messageToSession
            (fun hh => hne hh.symm), hmap]
        · show (alookup mid (aerase m.id st.pendingParts)).getD []
            = (alookup mid st.pendingParts).getD []
          rw [alookup_aerase_ne m.id mid st.pendingParts (fun hh => hne hh.symm)]
        · intro d hd
          replace hd : d ∈ (st.dispatched ++ [Dispatch.addMessage m.sessionID m])
              ++ pending.map (fun q => Dispatch.addPart m.sessionID q.messageID q) := hd
          rcases List.mem_append.mp hd with hd | hd
          · rcases List.mem_append.mp hd with hd | hd
            · exact Or.inl hd
            · right
              simp only [List.mem_singleton] at hd
              subst hd
              rfl
          · right
            rcases List.mem_map.mp hd with ⟨q, hq2, hdq⟩
            have hqm : q.messageID = m.id := hwf m.id pending hq0 q hq2
            rw [← hdq]
            simp [partDispatchFor, hqm, hne]
    · have heq : handleSubEvent st (.messageCreated m) = st := by
        simp [handleSubEvent, hr]
      rw [heq]
      exact ⟨hmap, rfl, fun d hd => Or.inl hd⟩
  | messageUpdated m =>
    have hparts0 : partsForMessage mid [SubEvent.messageUpdated m] = [] := rfl
    rw [hparts0, List.append_nil]
    by_cases hr : m.sessionID ∈ st.registered
    · have hne : m.id ≠ mid := fun hidm => hev m (Or.inr rfl) hidm hr
      have heq : handleSubEvent st (.messageUpdated m)
          = { st with
                messageToSession := aset m.id m.sessionID st.messageToSession,
                dispatched := st.dispatched ++ [Dispatch.updateMessage m.sessionID m] } := by
        simp [handleSubEvent, hr]
      rw [heq]
      refine ⟨?_, rfl, ?_⟩
      · show alookup mid (aset m.id m.sessionID st.messageToSession) = none
        rw [alookup_aset_ne m.id mid m.sessionID st.messageToSession
          (fun hh => hne hh.symm), hmap]
      · intro d hd
        replace hd : d ∈ st.dispatched ++ [Dispatch.updateMessage m.sessionID m] := hd
        rcases List.mem_append.mp hd with hd | hd
        · exact Or.inl hd
        · right
          simp only [List.mem_singleton] at hd
          subst hd
          rfl
    · have heq : handleSubEvent st (.messageUpdated m) = st := by
        simp [handleSubEvent, hr]
      rw [heq]
      exact ⟨hmap, rfl, fun d hd => Or.inl hd⟩
  | partCreated p =>
    have hparts0 : partsForMessage mid [SubEvent.partCreated p]
        = if p.messageID = mid then [p] else [] := by
      by_cases h : p.messageID = mid <;> simp [partsForMessage, h]
    rw [hparts0]
    exact handlePartEvent_no_flush mid p false st hmap
  | partUpdated p =>
    have hparts0 : partsForMessage mid [SubEvent.partUpdated p]
        = if p.messageID = mid then [p] else [] := by
      by_cases h : p.messageID = mid <;> simp [partsForMessage, h]
    rw [hparts0]
    exact handlePartEvent_no_flush mid p true st hmap

theorem runSubEvents_no_flush (mid : String) (evs : List SubEvent) :
    ∀ st : SubSyncState, QueueWF st →
    alookup mid st.messageToSession = none →
    (∀ msg : Message,
      (SubEvent.messageCreated msg ∈ evs ∨ SubEvent.messageUpdated msg ∈ evs) →
      msg.id = mid → msg.sessionID ∉ st.registered) →
    QueueWF (runSubEvents st evs) ∧
    alookup mid (runSubEvents st evs).messageToSession = none ∧
    (runSubEvents st evs).registered = st.registered ∧
    (alookup mid (runSubEvents st evs).pendingParts).getD []
      = (alookup mid st.pendingParts).getD [] ++ partsForMessage mid evs ∧
    (∀ d ∈ (runSubEvents st evs).dispatched,
      d ∈ st.dispatched ∨ partDispatchFor mid d = false) := by
  induction evs with
  | nil =>
    intro st hwf hmap _
    exact ⟨hwf, hmap, rfl, by simp [partsForMessage, runSubEvents],
      fun d hd => Or.inl hd⟩
  | cons e rest ih =>
    intro st hwf hmap hm
    have hev : ∀ msg : Message, (e = .messageCreated msg ∨ e = .messageUpdated msg) →
        msg.id = mid → msg.sessionID ∉ st.registered := by
      intro msg hh hid
      apply hm msg _ hid
      rcases hh with hh | hh
      · left
        rw [← hh]
        exact List.mem_cons_self e rest
      · right
        rw [← hh]
        exact List.mem_cons_self e rest
    obtain ⟨hmap2, hpend2, hdisp2⟩ := handleSubEvent_no_flush_step mid st e hwf hmap hev
    have hwf2 := queueWF_step st e hwf
    have hreg2 := handleSubEvent_registered st e
    have hm2 : ∀ msg : Message,
        (SubEvent.messageCreated msg ∈ rest ∨ SubEvent.messageUpdated msg ∈ rest) →
        msg.id = mid → msg.sessionID ∉ (handleSubEvent st e).registered := by
      intro msg hh hid
      rw [hreg2]
      apply hm msg _ hid
      rcases hh with hh | hh
      · exact Or.inl (List.mem_cons_of_mem e hh)
      · exact Or.inr (List.mem_cons_of_mem e hh)
    obtain ⟨h1, h2, h3, h4, h5⟩ := ih (handleSubEvent st e) hwf2 hmap2 hm2
    have hrun : runSubEvents st (e :: rest) = runSubEvents (handleSubEvent st e) rest := rfl
    refine ⟨?_, ?_, ?_, ?_, ?_⟩
    · rw [hrun]
      exact h1
    · rw [hrun]
      exact h2
    · rw [hrun, h3, hreg2]
    · rw [hrun, h4, hpend2, partsForMessage_cons mid e rest, List.append_assoc]
    · intro d hd
      rw [hrun] at hd
      rcases h5 d hd with hin | hfalse
      · exact hdisp2 d hin
      · exact Or.inr hfalse

/-- Claim C9: message.created and message.updated events are dispatched to
the subagents API only when the sessionID is registered in the subagent
state; a message event for an unregistered session leaves the hook state
completely unchanged; a registered message.updated dispatches only
`updateMessage` and leaves the pending queue untouched (parts are flushed
only by message.created); and over any trace in which every message event
naming message `mid` carries an unregistered sessionID, the parts queued
for `mid` only accumulate in arrival order and no part dispatch for `mid`
is ever issued. -/
theorem useSubagentSync_registered_filter (registered : List String)
    (evs : List SubEvent) (mid : String)
    (hm : ∀ msg : Message,
      (SubEvent.messageCreated msg ∈ evs ∨ SubEvent.messageUpdated msg ∈ evs) →
      msg.id = mid → msg.sessionID ∉ registered) :
    (∀ st : SubSyncState, ∀ m : Message, m.sessionID ∉ st.registered →
      handleSubEvent st (.messageCreated m) = st ∧
      handleSubEvent st (.messageUpdated m) = st) ∧
    (∀ st : SubSyncState, ∀ m : Message, m.sessionID ∈ st.registered →
      (handleSubEvent st (.messageUpdated m)).pendingParts = st.pendingParts ∧
      (handleSubEvent st (.messageUpdated m)).dispatched
        = st.dispatched ++ [.updateMessage m.sessionID m]) ∧
    ((alookup mid (runSubEvents (initSubSync registered) evs).pendingParts).getD []
        = partsForMessage mid evs ∧
      ∀ d ∈ (runSubEvents (initSubSync registered) evs).dispatched,
        partDispatchFor mid d = false) := by
  refine ⟨?_, ?_, ?_⟩
  · intro st m hnr
    constructor <;> simp [handleSubEvent, hnr]
  · intro st m hr
    constructor <;> simp [handleSubEvent, hr]
  · have hwf0 : QueueWF (initSubSync registered) := by
      intro k ps hk
      simp [initSubSync, alookup] at hk
    have hmap0 : alookup mid (initSubSync registered).messageToSession = none := rfl
    obtain ⟨_, _, _, h4, h5⟩ := runSubEvents_no_flush mid evs (initSubSync registered)
      hwf0 hmap0 hm
    constructor
    · simpa [initSubSync, alookup] using h4
    · intro d hd
      rcases h5 d hd with hin | hfalse
      · simp [initSubSync] at hin
      · exact hfalse

/-- Witness for C9: with only "s1" registered, a part for message "m1"
followed by a `message.created` for "m1" carrying the unregistered session
"s2" leaves the part queued and dispatches nothing. -/
theorem useSubagentSync_registered_filter_witness :
    (alookup "m1" (runSubEvents (initSubSync ["s1"])
        [SubEvent.partCreated ⟨"p1", "m1"⟩,
         SubEvent.messageCreated ⟨"m1", "s2"⟩]).pendingParts).getD []
      = partsForMessage "m1"
          [SubEvent.partCreated ⟨"p1", "m1"⟩,
           SubEvent.messageCreated ⟨"m1", "s2"⟩] := by
  have hm : ∀ msg : Message,
      (SubEvent.messageCreated msg ∈
          ([SubEvent.partCreated ⟨"p1", "m1"⟩,
            SubEvent.messageCreated ⟨"m1", "s2"⟩] : List SubEvent) ∨
        SubEvent.messageUpdated msg ∈
          ([SubEvent.partCreated ⟨"p1", "m1"⟩,
            SubEvent.messageCreated ⟨"m1", "s2"⟩] : List SubEvent)) →
      msg.id = "m1" → msg.sessionID ∉ (["s1"] : List String) := by
    intro msg hh _
    rcases hh with hh | hh
    · simp only [List.mem_cons, List.mem_singleton] at hh
      rcases hh with hh | hh | hh
      · cases hh
      · injection hh with hh
        subst hh
        decide
      · cases hh
    · simp only [List.mem_cons, List.mem_singleton] at hh
      rcases hh with hh | hh | hh
      · cases hh
      · cases hh
      · cases hh
  exact (useSubagentSync_registered_filter ["s1"]
    [SubEvent.partCreated ⟨"p1", "m1"⟩, SubEvent.messageCreated ⟨"m1", "s2"⟩]
    "m1" hm).2.2.1

theorem isAvailable_availErrToFalse (s : EventSource) :
    isAvailable (availErrToFalse s) = isAvailable s := by
  obtain ⟨n, ar, str⟩ := s
  cases ar <;> rfl

theorem availErrToFalse_of_available (s : EventSource) (h : isAvailable s = true) :
    availErrToFalse s = s := by
  obtain ⟨n, ar, str⟩ := s
  cases ar with
  | ok b => rfl
  | error e => simp [isAvailable] at h

theorem availableSources_errToFalse (ss : List EventSource) :
    availableSources (ss.map availErrToFalse) = availableSources ss := by
  induction ss with
  | nil => rfl
  | cons hd tl ih =>
    simp only [List.map_cons, availableSources, List.filter_cons] at *
    rw [isAvailable_availErrToFalse]
    cases hia : isAvailable hd with
    | true =>
      rw [availErrToFalse_of_available hd hia]
      simpa using ih
    | false =>
      simpa using ih

theorem isAvailable_iff (s : EventSource) :
    isAvailable s = true ↔ s.availableResult = .ok true := by
  obtain ⟨n, ar, str⟩ := s
  cases ar with
  | ok b => cases b <;> simp [isAvailable]
  | error e => simp [isAvailable]

theorem availableSources_eq_filter (ss : List EventSource) :
    availableSources ss
      = ss.filter (fun s => decide (s.availableResult = Except.ok true)) := by
  unfold availableSources
  apply List.filter_congr
  intro s _
  obtain ⟨n, ar, str⟩ := s
  cases ar with
  | ok b =>
    cases b with
    | true =>
      rw [decide_eq_true (by rfl)]
      rfl
    | false =>
      rw [decide_eq_false (by intro hh; injection hh with hh; cases hh)]
      rfl
  | error e =>
    rw [decide_eq_false (by intro hh; cases hh)]
    rfl

theorem firstFailure_none {l : List EventSource}
    (h : ∀ s ∈ l, s.stream.failure = none) : firstFailure l = none := by
  induction l with
  | nil => rfl
  | cons hd tl ih =>
    have hhd := h hd (List.mem_cons_self hd tl)
    simp only [firstFailure, hhd]
    exact ih (fun s hs => h s (List.mem_cons_of_mem hd hs))

theorem firstFailure_mem {l : List EventSource} {e : String}
    (h : firstFailure l = some e) : ∃ s ∈ l, s.stream.failure = some e := by
  induction l with
  | nil => cases h
  | cons hd tl ih =>
    cases hf : hd.stream.failure with
    | some e2 =>
      simp only [firstFailure, hf] at h
      injection h with h
      subst h
      exact ⟨hd, List.mem_cons_self hd tl, hf⟩
    | none =>
      simp only [firstFailure, hf] at h
      obtain ⟨s, hs, hfs⟩ := ih h
      exact ⟨s, List.mem_cons_of_mem hd hs, hfs⟩

theorem firstFailure_some_of_exists {l : List EventSource}
    (h : ∃ s ∈ l, s.stream.failure ≠ none) : ∃ e, firstFailure l = some e := by
  induction l with
  | nil =>
    obtain ⟨s, hs, _⟩ := h
    cases hs
  | cons hd tl ih =>
    cases hf : hd.stream.failure with
    | some e2 => exact ⟨e2, by simp [firstFailure, hf]⟩
    | none =>
      simp only [firstFailure, hf]
      apply ih
      obtain ⟨s, hs, hfs⟩ := h
      rcases List.mem_cons.mp hs with hh | hh
      · subst hh
        exact absurd hf hfs
      · exact ⟨s, hh, hfs⟩

/-- Claim C3: the merged stream yields exactly the events of the sources
whose availability check yields true (here stated under the hypothesis
that no subscribed stream raises a mid-stream error, the case claim C4
covers); a source whose availability check throws is excluded and treated
identically to one returning false — rewriting every throwing check to
`false` leaves the merged run unchanged, so the availability error never
propagates. -/
theorem mergedStream_availability_filtering (ss : List EventSource)
    (hok : ∀ s ∈ availableSources ss, s.stream.failure = none) :
    mergedRun ss
      = .ok ((ss.filter (fun s => decide (s.availableResult = Except.ok true))).flatMap
          (fun s => s.stream.events)) ∧
    (∀ s ∈ ss, ∀ e, s.availableResult = .error e → s ∉ availableSources ss) ∧
    mergedRun (ss.map availErrToFalse) = mergedRun ss := by
  refine ⟨?_, ?_, ?_⟩
  · unfold mergedRun
    rw [firstFailure_none hok, availableSources_eq_filter]
  · intro s _ e he hmem
    have hav : isAvailable s = true := (List.mem_filter.mp hmem).2
    rw [isAvailable_iff] at hav
    rw [he] at hav
    cases hav
  · unfold mergedRun
    rw [availableSources_errToFalse]

/-- Witness for C3 with the spec test pair: an available source with one
event and an unavailable one; the merge yields exactly the available
source's event. -/
theorem mergedStream_availability_filtering_witness :
    (∀ s ∈ availableSources
        [EventSource.mk "available" (Except.ok true)
          ⟨[⟨"available", "test", "ok", 100, none⟩], none⟩,
         EventSource.mk "unavailable" (Except.ok false)
          ⟨[⟨"unavailable", "test", "no", 200, none⟩], none⟩],
      s.stream.failure = none) ∧
    mergedRun
        [EventSource.mk "available" (Except.ok true)
          ⟨[⟨"available", "test", "ok", 100, none⟩], none⟩,
         EventSource.mk "unavailable" (Except.ok false)
          ⟨[⟨"unavailable", "test", "no", 200, none⟩], none⟩]
      = Except.ok [⟨"available", "test", "ok", 100, none⟩] :=
  ⟨by decide, by
    have h := (mergedStream_availability_filtering
      [EventSource.mk "available" (Except.ok true)
        ⟨[⟨"available", "test", "ok", 100, none⟩], none⟩,
       EventSource.mk "unavailable" (Except.ok false)
        ⟨[⟨"unavailable", "test", "no", 200, none⟩], none⟩]
      (by decide)).1
    rw [h]
    rfl⟩

/-- Claim C4: a mid-stream error of any subscribed source fails the whole
merged stream (fail-fast): whenever some subscribed source's stream
carries a failure, the merged run is an error equal to some subscribed
source's stream error (the failing source is not merely dropped), and
conversely a failed merged run always carries such a source error. -/
theorem mergedStream_fail_fast (ss : List EventSource) :
    ((∃ s ∈ availableSources ss, s.stream.failure ≠ none) →
      ∃ e, mergedRun ss = .error e ∧
        ∃ s ∈ availableSources ss, s.stream.failure = some e) ∧
    (∀ e, mergedRun ss = .error e →
      ∃ s ∈ availableSources ss, s.stream.failure = some e) := by
  constructor
  · intro h
    obtain ⟨e, hf⟩ := firstFailure_some_of_exists h
    refine ⟨e, ?_, firstFailure_mem hf⟩
    unfold mergedRun
    rw [hf]
  · intro e he
    unfold mergedRun at he
    cases hf : firstFailure (availableSources ss) with
    | none =>
      rw [hf] at he
      cases he
    | some e2 =>
      rw [hf] at he
      injection he with he
      subst he
      exact firstFailure_mem hf

/-- Witness for C4 with the spec test source: a subscribed source failing
with "Source stream error" fails the merged run. -/
theorem mergedStream_fail_fast_witness :
    (∃ s ∈ availableSources
        [EventSource.mk "error-source" (Except.ok true)
          ⟨[], some "Source stream error"⟩],
      s.stream.failure ≠ none) ∧
    (∃ e, mergedRun
        [EventSource.mk "error-source" (Except.ok true)
          ⟨[], some "Source stream error"⟩] = .error e ∧
      ∃ s ∈ availableSources
        [EventSource.mk "error-source" (Except.ok true)
          ⟨[], some "Source stream error"⟩],
        s.stream.failure = some e) :=
  ⟨⟨EventSource.mk "error-source" (Except.ok true) ⟨[], some "Source stream error"⟩,
      by decide, by decide⟩,
    (mergedStream_fail_fast
      [EventSource.mk "error-source" (Except.ok true)
        ⟨[], some "Source stream error"⟩]).1
      ⟨EventSource.mk "error-source" (Except.ok true) ⟨[], some "Source stream error"⟩,
        by decide, by decide⟩⟩

/-- Claim C5: a merged stream over no sources, or over only unavailable
sources, yields zero events and no error, and disposal never fails. -/
theorem mergedStream_empty_live (ss : List EventSource)
    (h : ∀ s ∈ ss, isAvailable s = false) :
    mergedRun ([] : List EventSource) = .ok [] ∧
    disposeMerged ([] : List EventSource) = .ok () ∧
    availableSources ss = [] ∧
    mergedRun ss = .ok [] ∧
    disposeMerged ss = .ok () := by
  have hav : availableSources ss = [] := by
    unfold availableSources
    induction ss with
    | nil => rfl
    | cons hd tl ih =>
      rw [List.filter_cons, if_neg]
      · exact ih (fun s hs => h s (List.mem_cons_of_mem hd hs))
      · rw [h hd (List.mem_cons_self hd tl)]
        simp
  refine ⟨rfl, rfl, hav, ?_, rfl⟩
  unfold mergedRun
  rw [hav]
  rfl

/-- Witness for C5 with the spec test pair of unavailable sources. -/
theorem mergedStream_empty_live_witness :
    (∀ s ∈ [EventSource.mk "source1" (Except.ok false) ⟨[⟨"source1", "test", "x", 100, none⟩], none⟩,
            EventSource.mk "source2" (Except.ok false) ⟨[⟨"source2", "test", "y", 200, none⟩], none⟩],
      isAvailable s = false) ∧
    mergedRun
        [EventSource.mk "source1" (Except.ok false) ⟨[⟨"source1", "test", "x", 100, none⟩], none⟩,
         EventSource.mk "source2" (Except.ok false) ⟨[⟨"source2", "test", "y", 200, none⟩], none⟩]
      = Except.ok [] :=
  ⟨by decide,
    (mergedStream_empty_live
      [EventSource.mk "source1" (Except.ok false) ⟨[⟨"source1", "test", "x", 100, none⟩], none⟩,
       EventSource.mk "source2" (Except.ok false) ⟨[⟨"source2", "test", "y", 200, none⟩], none⟩]
      (by decide)).2.2.2.1⟩

/-- Claim C7: `discover` never fails and always returns a non-empty list;
individual probe failures are excluded; on total failure or zero reachable
candidates the result is exactly the single fallback entry (default local
address, empty directory); and every returned entry is either the fallback
or a successfully probed server. -/
theorem discover_never_fails (probes : List (Except String ServerInfo)) :
    discover probes ≠ [] ∧
    ((∀ p ∈ probes, ∃ e, p = Except.error e) → discover probes = [defaultServer]) ∧
    (∀ s ∈ discover probes, s = defaultServer ∨ Except.ok s ∈ probes) ∧
    (probeResults probes ≠ [] → discover probes = probeResults probes) := by
  have hmem : ∀ s, s ∈ probeResults probes → Except.ok s ∈ probes := by
    intro s hs
    unfold probeResults at hs
    obtain ⟨p, hp, hps⟩ := List.mem_filterMap.mp hs
    cases p with
    | ok s2 =>
      simp only at hps
      injection hps with hps
      subst hps
      exact hp
    | error e => cases hps
  refine ⟨?_, ?_, ?_, ?_⟩
  · unfold discover
    cases hpr : probeResults probes with
    | nil => simp
    | cons hd tl => simp
  · intro hall
    have hpr : probeResults probes = [] := by
      unfold probeResults
      rw [List.filterMap_eq_nil_iff]
      intro p hp
      obtain ⟨e, he⟩ := hall p hp
      rw [he]
    unfold discover
    rw [hpr]
  · intro s hs
    unfold discover at hs
    cases hpr : probeResults probes with
    | nil =>
      rw [hpr] at hs
      simp only [List.mem_singleton] at hs
      exact Or.inl hs
    | cons hd tl =>
      rw [hpr] at hs
      right
      apply hmem
      rw [hpr]
      exact hs
  · intro hne
    unfold discover
    cases hpr : probeResults probes with
    | nil => exact absurd hpr hne
    | cons hd tl => rfl

/-- Witness for C7 against three unreachable candidates: all probes fail
and `discover` still returns the fallback entry. -/
theorem discover_never_fails_witness :
    (∀ p ∈ ([Except.error "ECONNREFUSED", Except.error "timeout",
        Except.error "ECONNREFUSED"] : List (Except String ServerInfo)),
      ∃ e, p = Except.error e) ∧
    discover [Except.error "ECONNREFUSED", Except.error "timeout",
        Except.error "ECONNREFUSED"] = [defaultServer] := by
  have hall : ∀ p ∈ ([Except.error "ECONNREFUSED", Except.error "timeout",
      Except.error "ECONNREFUSED"] : List (Except String ServerInfo)),
      ∃ e, p = Except.error e := by
    intro p hp
    simp only [List.mem_cons, List.mem_singleton] at hp
    rcases hp with h | h | h | h
    · exact ⟨"ECONNREFUSED", h⟩
    · exact ⟨"timeout", h⟩
    · exact ⟨"ECONNREFUSED", h⟩
    · cases h
  exact ⟨hall,
    (discover_never_fails [Except.error "ECONNREFUSED", Except.error "timeout",
      Except.error "ECONNREFUSED"]).2.1 hall⟩

end OpencodeVibe
